import Mathlib

/-!
Shallow embedding of the state synchronization core of the collaborative
whiteboard backend (src/unnamed/part_000, with src/server.js as a second,
log-free variant of the same handlers).

The backing Redis store is modelled explicitly:
  * key "shapes"     : a JSON object mapping shape id to an opaque shape blob,
                       embedded as an insertion-ordered association list;
  * key "background" : an optional background record;
  * key "eventQueue" : the Redis list built by `lpush` (head = newest);
  * key "users"      : an integer counter (`incr` / `decr` can go negative,
                       hence `Int`).

Shape blobs are atomic payloads the core never inspects, so they are embedded
as opaque strings. Every redis / Web PubSub call in `handleUserEvent` is one
operation in a program-ordered list; a failure oracle says which operation
throws, reproducing the single try/catch around the handler body
(`res.success()` on completion, `res.fail()` on any throw, no rollback).
-/

namespace Whiteboard

abbrev ShapeId := String

/-- An opaque shape payload (geometry/style blob); the core only stores,
replaces or deletes it by id and never looks inside. -/
abbrev Shape := String

/-- The background record stored under the "background" key. -/
structure Background where
  id : String
  data : String
  contentType : String
deriving DecidableEq

/-- The JSON payload of a user event message. `shapeArg` models the
two-element array `[id, shape]` carried by `addShape`; `idArg` models a bare
string id as carried by `removeShape`; `otherArg` models any other
(non-array) JSON value. -/
inductive EventData where
  | shapeArg (id : ShapeId) (shape : Shape)
  | idArg (id : ShapeId)
  | otherArg (raw : String)
deriving DecidableEq

/-- A message: `{name, data}` as received by `handleUserEvent` and as stored
in the event queue / broadcast to the group. -/
structure Event where
  name : String
  data : EventData
deriving DecidableEq

/-- JS string coercion of a payload used as an object key
(`delete shapes[id]` where `id = message.data`): a string is itself, an array
stringifies to its elements joined by a comma. -/
def EventData.asKey : EventData → String
  | .shapeArg id shape => id ++ "," ++ shape
  | .idArg id => id
  | .otherArg raw => raw

/-- The parsed content of the "shapes" key: a JS object embedded as an
insertion-ordered association list with unique keys. -/
abbrev ShapeMap := List (ShapeId × Shape)

/-- Property lookup `shapes[id]` on the parsed object. -/
def objGet : ShapeMap → ShapeId → Option Shape
  | [], _ => Option.none
  | p :: m, k => if p.1 = k then Option.some p.2 else objGet m k

/-- Property write `shapes[id] = shape`: overwrite in place when the key is
present, append otherwise (JS object update). -/
def objSet : ShapeMap → ShapeId → Shape → ShapeMap
  | [], k, v => [(k, v)]
  | p :: m, k, v => if p.1 = k then (k, v) :: m else p :: objSet m k v

/-- Property delete `delete shapes[id]`: removes the binding when present,
silently a no-op when absent. -/
def objDel : ShapeMap → ShapeId → ShapeMap
  | [], _ => []
  | p :: m, k => if p.1 = k then objDel m k else p :: objDel m k

/-- The shared Redis state touched by `handleUserEvent`: the "shapes" object
(absent key parses to `{}`, embedded as `[]`), the "background" record
(absent embedded as `Option.none`), and the "eventQueue" list (head =
newest, built by `lpush`). -/
structure Store where
  shapes : ShapeMap
  background : Option Background
  eventQueue : List Event
deriving DecidableEq

/-- The store with every key absent. -/
def emptyStore : Store := ⟨[], Option.none, []⟩

/-- The acknowledgment sent to the originating client: `res.success()` or
`res.fail()`. -/
inductive Ack where
  | success
  | fail
deriving DecidableEq

/-- One statement of the handler body: `call f` is an awaited store or
gateway call transforming the store and emitting a (possibly empty) list of
outbound messages; `throws` is a statement that throws unconditionally (the
destructuring `const [id, shape] = message.data` on a non-array payload). -/
inductive HOp where
  | call (f : Store → Store × List Event)
  | throws

/-- Runs the program-ordered statements of the handler body. `fails i = true`
means the i-th awaited call throws before taking effect. The try/catch stops
at the first throw, leaving all earlier effects in place, and the `Bool`
records whether the body ran to completion. -/
def runOps (fails : Nat → Bool) : List HOp → Nat → Store → List Event → Store × List Event × Bool
  | [], _, s, out => (s, out, true)
  | HOp.throws :: _, _, s, out => (s, out, false)
  | HOp.call f :: ops, i, s, out =>
    if fails i = true then (s, out, false)
    else
      let r := f s
      runOps fails ops (i + 1) r.1 (out ++ r.2)

/-- The awaited operations of `handleUserEvent` (src/unnamed/part_000 lines
78-110) in program order: `lpush(eventQueue, message)`, `ltrim(eventQueue,
0, 99)`, then the name dispatch (`get`/`set` of "shapes" for `addShape` and
`removeShape`, `del` of "shapes" then "background" for `clear`, nothing for
any other name), then `sendToAll(message)` to the draw group. -/
def opsFor (m : Event) : List HOp :=
  [HOp.call fun s => ({ s with eventQueue := m :: s.eventQueue }, []),
   HOp.call fun s => ({ s with eventQueue := s.eventQueue.take 100 }, [])]
  ++ (if m.name = "addShape" then
        match m.data with
        | .shapeArg id shape =>
          [HOp.call fun s => (s, []),
           HOp.call fun s => ({ s with shapes := objSet s.shapes id shape }, [])]
        | _ => [HOp.throws]
      else if m.name = "removeShape" then
        [HOp.call fun s => (s, []),
         HOp.call fun s => ({ s with shapes := objDel s.shapes m.data.asKey }, [])]
      else if m.name = "clear" then
        [HOp.call fun s => ({ s with shapes := [] }, []),
         HOp.call fun s => ({ s with background := Option.none }, [])]
      else [])
  ++ [HOp.call fun s => (s, [m])]

/-- `handleUserEvent` with an explicit failure oracle: returns the final
store, the outbound broadcasts, and the acknowledgment (`success` when the
body ran to completion, `fail` when some call threw). -/
def handleUserEvent (fails : Nat → Bool) (m : Event) (s : Store) : Store × List Event × Ack :=
  let r := runOps fails (opsFor m) 0 s []
  (r.1, r.2.1, if r.2.2 = true then Ack.success else Ack.fail)

/-- The failure oracle of a run in which every awaited call succeeds. -/
def noFail : Nat → Bool := fun _ => false

/-- Sequential processing of a list of user events (each one a separate
`handleUserEvent` invocation), failure-free. -/
def processAll (ms : List Event) (s : Store) : Store :=
  ms.foldl (fun s m => (handleUserEvent noFail m s).1) s

/-- `replayMissedEvents` (src/unnamed/part_000 lines 27-32): `lrange
eventQueue 0 -1` returns the stored list in list order (head of the Redis
list first, i.e. newest first, since the queue is built by `lpush`), and
each element is sent to the joining user in that order. The result is the
sequence of unicast sends, in send order. -/
def replayMissedEvents (q : List Event) : List Event := q

/-- `onConnected` presence update: `incr "users"` returns the new count. -/
def onConnected (u : Int) : Int := u + 1

/-- `onDisconnected` presence update (src/unnamed/part_000 lines 66-77):
`users = Math.max(0, await decr("users"))` followed by `set("users", users)`,
so the broadcast count and the persisted value are both the clamped value.
(src/server.js lines 54-71 clamps the same way, writing 0 back only when the
decremented value was negative.) -/
def onDisconnected (u : Int) : Int := max 0 (u - 1)

/-- A connection lifecycle event seen by the presence counter. -/
inductive ConnEvent where
  | connect
  | disconnect
deriving DecidableEq

/-- One presence-counter step on the persisted "users" value. -/
def presenceStep (u : Int) : ConnEvent → Int
  | .connect => onConnected u
  | .disconnect => onDisconnected u

/-- The persisted "users" value after an interleaving of connection events,
starting from 0. -/
def presenceRun (es : List ConnEvent) : Int := es.foldl presenceStep 0

/-- A well-formed edit, the alphabet of the Document Store refinement claim. -/
inductive Edit where
  | add (id : ShapeId) (shape : Shape)
  | remove (id : ShapeId)
  | clearAll
deriving DecidableEq

/-- The message carrying an edit. -/
def Edit.toEvent : Edit → Event
  | .add id shape => ⟨"addShape", .shapeArg id shape⟩
  | .remove id => ⟨"removeShape", .idArg id⟩
  | .clearAll => ⟨"clear", .otherArg ""⟩

/-- Modelled from the spec: the reference in-memory shape mapping, as a plain
function from ids to optional shapes. -/
abbrev RefMap := ShapeId → Option Shape

/-- Modelled from the spec: the empty reference mapping. -/
def refEmpty : RefMap := fun _ => Option.none

/-- Modelled from the spec: insert on addShape, delete on removeShape, empty
on clear. -/
def refApply (m : RefMap) : Edit → RefMap
  | .add id shape => fun k => if k = id then Option.some shape else m k
  | .remove id => fun k => if k = id then Option.none else m k
  | .clearAll => fun _ => Option.none

/-- Modelled from the spec: the reference mapping after a sequence of edits
applied to the empty mapping. -/
def refRun (es : List Edit) : RefMap := es.foldl refApply refEmpty

/-- The Document Store after a sequence of edits is applied, one
`handleUserEvent` call each, to the initially empty store. -/
def runEdits (es : List Edit) : Store := processAll (es.map Edit.toEvent) emptyStore

/-! ### Handler equations (failure-free runs) -/

theorem processAll_nil (s : Store) : processAll [] s = s := rfl

theorem processAll_cons (m : Event) (ms : List Event) (s : Store) :
    processAll (m :: ms) s = processAll ms ((handleUserEvent noFail m s).1) := rfl

theorem handleUserEvent_addShape (id : ShapeId) (sh : Shape) (s : Store) :
    handleUserEvent noFail (Event.mk "addShape" (EventData.shapeArg id sh)) s =
      ({ s with eventQueue := (Event.mk "addShape" (EventData.shapeArg id sh) :: s.eventQueue).take 100,
                shapes := objSet s.shapes id sh },
       [Event.mk "addShape" (EventData.shapeArg id sh)], Ack.success) := rfl

theorem handleUserEvent_removeShape (d : EventData) (s : Store) :
    handleUserEvent noFail (Event.mk "removeShape" d) s =
      ({ s with eventQueue := (Event.mk "removeShape" d :: s.eventQueue).take 100,
                shapes := objDel s.shapes d.asKey },
       [Event.mk "removeShape" d], Ack.success) := rfl

theorem handleUserEvent_clear (d : EventData) (s : Store) :
    handleUserEvent noFail (Event.mk "clear" d) s =
      ({ s with eventQueue := (Event.mk "clear" d :: s.eventQueue).take 100,
                shapes := [], background := Option.none },
       [Event.mk "clear" d], Ack.success) := rfl

theorem handleUserEvent_unknown (n : String) (d : EventData) (s : Store)
    (h1 : ¬ n = "addShape") (h2 : ¬ n = "removeShape") (h3 : ¬ n = "clear") :
    handleUserEvent noFail (Event.mk n d) s =
      ({ s with eventQueue := (Event.mk n d :: s.eventQueue).take 100 },
       [Event.mk n d], Ack.success) := by
  simp only [handleUserEvent, opsFor, if_neg h1, if_neg h2, if_neg h3]
  rfl

theorem handleUserEvent_eventQueue (m : Event) (s : Store) :
    ((handleUserEvent noFail m s).1).eventQueue = (m :: s.eventQueue).take 100 := by
  obtain ⟨n, d⟩ := m
  by_cases h1 : n = "addShape"
  · subst h1; cases d <;> rfl
  · by_cases h2 : n = "removeShape"
    · subst h2; rfl
    · by_cases h3 : n = "clear"
      · subst h3; rfl
      · rw [handleUserEvent_unknown n d s h1 h2 h3]

/-! ### Association-list object lemmas -/

theorem objGet_objSet_self (m : ShapeMap) (id : ShapeId) (v : Shape) :
    objGet (objSet m id v) id = Option.some v := by
  induction m with
  | nil => simp [objSet, objGet]
  | cons p m ih =>
    by_cases hp : p.1 = id
    · simp [objSet, hp, objGet]
    · simp [objSet, hp, objGet, ih]

theorem objGet_objSet_ne (m : ShapeMap) (id : ShapeId) (v : Shape) (k : ShapeId)
    (hk : k ≠ id) :
    objGet (objSet m id v) k = objGet m k := by
  induction m with
  | nil => simp [objSet, objGet, Ne.symm hk]
  | cons p m ih =>
    by_cases hp : p.1 = id
    · simp [objSet, hp, objGet, Ne.symm hk]
    · by_cases hpk : p.1 = k <;> simp [objSet, hp, objGet, hpk, hk, ih]

theorem objGet_objDel_self (m : ShapeMap) (id : ShapeId) :
    objGet (objDel m id) id = Option.none := by
  induction m with
  | nil => simp [objDel, objGet]
  | cons p m ih =>
    by_cases hp : p.1 = id <;> simp [objDel, hp, objGet, ih]

theorem objGet_objDel_ne (m : ShapeMap) (id : ShapeId) (k : ShapeId) (hk : k ≠ id) :
    objGet (objDel m id) k = objGet m k := by
  induction m with
  | nil => simp [objDel]
  | cons p m ih =>
    by_cases hp : p.1 = id
    · simp [objDel, hp, objGet, hk, Ne.symm hk, ih]
    · by_cases hpk : p.1 = k <;> simp [objDel, hp, objGet, hpk, hk, ih]

theorem objDel_of_absent (m : ShapeMap) (id : ShapeId)
    (h : objGet m id = Option.none) : objDel m id = m := by
  induction m with
  | nil => rfl
  | cons p m ih =>
    by_cases hp : p.1 = id
    · simp [objGet, hp] at h
    · simp only [objGet, hp, if_false] at h
      simp [objDel, hp, ih h]

/-! ### Event-log lemmas -/

theorem take_append_take {α : Type} (n : Nat) (A B : List α) :
    (A ++ B.take n).take n = (A ++ B).take n := by
  rw [List.take_append_eq_append_take, List.take_append_eq_append_take, List.take_take]
  have h : (n - A.length) ⊓ n = n - A.length := inf_eq_left.mpr (Nat.sub_le n A.length)
  rw [h]

theorem processAll_eventQueue (ms : List Event) (s : Store)
    (h : s.eventQueue.length ≤ 100) :
    (processAll ms s).eventQueue = (ms.reverse ++ s.eventQueue).take 100 := by
  induction ms generalizing s with
  | nil => simpa [processAll] using (List.take_of_length_le h).symm
  | cons m ms ih =>
    have h1 : ((handleUserEvent noFail m s).1).eventQueue.length ≤ 100 := by
      rw [handleUserEvent_eventQueue]
      simp [List.length_take]
    calc (processAll (m :: ms) s).eventQueue
        = (processAll ms ((handleUserEvent noFail m s).1)).eventQueue := by
          rw [processAll_cons]
      _ = (ms.reverse ++ ((handleUserEvent noFail m s).1).eventQueue).take 100 := ih _ h1
      _ = (ms.reverse ++ (m :: s.eventQueue).take 100).take 100 := by
          rw [handleUserEvent_eventQueue]
      _ = (ms.reverse ++ (m :: s.eventQueue)).take 100 := take_append_take 100 _ _
      _ = ((m :: ms).reverse ++ s.eventQueue).take 100 := by
          simp [List.reverse_cons, List.append_assoc]

/-! ### Presence-counter lemmas -/

theorem presenceStep_nonneg (u : Int) (h : 0 ≤ u) (e : ConnEvent) :
    0 ≤ presenceStep u e := by
  cases e with
  | connect => simp only [presenceStep, onConnected]; omega
  | disconnect => exact le_max_left 0 _

theorem presenceFoldl_nonneg (es : List ConnEvent) (u : Int) (h : 0 ≤ u) :
    0 ≤ es.foldl presenceStep u := by
  induction es generalizing u with
  | nil => simpa
  | cons e es ih =>
    rw [List.foldl_cons]
    exact ih _ (presenceStep_nonneg u h e)

theorem presence_connects (n : Nat) (u : Int) :
    (List.replicate n ConnEvent.connect).foldl presenceStep u = u + n := by
  induction n generalizing u with
  | zero => simp
  | succ n ih =>
    rw [List.replicate_succ, List.foldl_cons, ih]
    simp only [presenceStep, onConnected]
    push_cast
    ring

theorem presence_disconnects (m : Nat) (u : Int) (h0 : 0 ≤ u) (hm : u ≤ m) :
    (List.replicate m ConnEvent.disconnect).foldl presenceStep u = 0 := by
  induction m generalizing u with
  | zero =>
    simp only [List.replicate_zero, List.foldl_nil]
    simp at hm
    omega
  | succ m ih =>
    rw [List.replicate_succ, List.foldl_cons]
    refine ih _ (le_max_left _ _) ?_
    simp only [presenceStep, onDisconnected]
    push_cast at hm ⊢
    omega

/-! ### Refinement of the Document Store by the reference mapping -/

theorem runEdits_refines (es : List Edit) (s : Store) (f : RefMap)
    (hm : ∀ k, objGet s.shapes k = f k) :
    ∀ k, objGet (processAll (es.map Edit.toEvent) s).shapes k = (es.foldl refApply f) k := by
  induction es generalizing s f with
  | nil => simpa [processAll]
  | cons e es ih =>
    rw [List.map_cons, processAll_cons, List.foldl_cons]
    refine ih _ _ ?_
    intro k
    cases e with
    | add id sh =>
      have hs : ((handleUserEvent noFail (Edit.toEvent (.add id sh)) s).1).shapes
          = objSet s.shapes id sh := rfl
      rw [hs]
      by_cases hk : k = id
      · subst hk
        rw [objGet_objSet_self]
        simp [refApply]
      · rw [objGet_objSet_ne _ _ _ _ hk]
        simp [refApply, hk, hm k]
    | remove id =>
      have hs : ((handleUserEvent noFail (Edit.toEvent (.remove id)) s).1).shapes
          = objDel s.shapes id := rfl
      rw [hs]
      by_cases hk : k = id
      · subst hk
        rw [objGet_objDel_self]
        simp [refApply]
      · rw [objGet_objDel_ne _ _ _ hk]
        simp [refApply, hk, hm k]
    | clearAll =>
      have hs : ((handleUserEvent noFail (Edit.toEvent .clearAll) s).1).shapes = [] := rfl
      rw [hs]
      simp [objGet, refApply]

/-! ### Claims -/

/-- Claim C1, refuted on the code: `handleUserEvent` lpushes every incoming
message — including one named "clear" — to the event queue before
dispatching on the name, so a processed clear IS appended to the Event Log
and `recent()` can return it. Processing a clear on the empty store leaves
exactly that clear event retained; processing addShape("a") then clear
retains [clear, addShape], so replaying the log resends the pre-clear edit
after the clear (newest first), resurfacing the cleared shape. -/
theorem C1_clear_event_is_logged :
    ((handleUserEvent noFail (Event.mk "clear" (EventData.otherArg "")) emptyStore).1).eventQueue
      = [Event.mk "clear" (EventData.otherArg "")]
    ∧ (Event.mk "clear" (EventData.otherArg "")).name = "clear"
    ∧ (processAll [Event.mk "addShape" (EventData.shapeArg "a" "{x:1}"),
         Event.mk "clear" (EventData.otherArg "")] emptyStore).eventQueue
      = [Event.mk "clear" (EventData.otherArg ""),
         Event.mk "addShape" (EventData.shapeArg "a" "{x:1}")] :=
  ⟨rfl, rfl, rfl⟩

/-- Claim C2, refuted on the code: `replayMissedEvents` sends
`lrange(eventQueue, 0, -1)` in list order, which is newest first for a queue
built by lpush. After appending e1 then e2 the unicast sequence is [e2, e1],
not the oldest-first [e1, e2] the claim states. Replay of an empty log does
send nothing. -/
theorem C2_replay_is_newest_first :
    replayMissedEvents
        (processAll [Event.mk "addShape" (EventData.shapeArg "a" "1"),
          Event.mk "addShape" (EventData.shapeArg "b" "2")] emptyStore).eventQueue
      = [Event.mk "addShape" (EventData.shapeArg "b" "2"),
         Event.mk "addShape" (EventData.shapeArg "a" "1")]
    ∧ ([Event.mk "addShape" (EventData.shapeArg "b" "2"),
        Event.mk "addShape" (EventData.shapeArg "a" "1")]
       ≠ [Event.mk "addShape" (EventData.shapeArg "a" "1"),
          Event.mk "addShape" (EventData.shapeArg "b" "2")])
    ∧ replayMissedEvents ([] : List Event) = [] :=
  ⟨rfl, by decide, rfl⟩

/-- Claim C3, confirmed: each append pushes the new event at the head and
trims to the 100 most recent (lpush then ltrim 0 99); the retained length
never exceeds 100 for any sequence of sequential appends; and after 150
sequential appends the retained log is exactly the last 100 events
(the events numbered 50..149), newest first — the order in which the log
stores them and in which `recent()` returns them. -/
theorem C3_log_bounded_and_last_100 :
    (∀ (m : Event) (s : Store),
        ((handleUserEvent noFail m s).1).eventQueue = (m :: s.eventQueue).take 100)
    ∧ (∀ ms : List Event, (processAll ms emptyStore).eventQueue.length ≤ 100)
    ∧ (∀ f : Nat → Event,
        (processAll ((List.range 150).map f) emptyStore).eventQueue
          = (((List.range 150).map f).drop 50).reverse) := by
  have hq : emptyStore.eventQueue = [] := rfl
  refine ⟨handleUserEvent_eventQueue, fun ms => ?_, fun f => ?_⟩
  · rw [processAll_eventQueue ms emptyStore (by rw [hq]; simp)]
    rw [List.length_take]
    exact inf_le_left
  · rw [processAll_eventQueue _ emptyStore (by rw [hq]; simp)]
    rw [hq, List.append_nil, List.take_reverse]
    simp

/-- Claim C4, counterexample: the interleaving disconnect, disconnect,
disconnect, connect, connect consists of N = 2 onConnect and M = 3 > N
onDisconnect operations, yet the resulting counter is 2, not 0: early
disconnects are absorbed by the clamp and the trailing connects are never
cancelled. -/
theorem C4_interleaving_counterexample :
    presenceRun [ConnEvent.disconnect, ConnEvent.disconnect, ConnEvent.disconnect,
      ConnEvent.connect, ConnEvent.connect] = 2
    ∧ (2 : Int) ≠ 0 :=
  ⟨by decide, by decide⟩

/-- Claim C4 as amended: the presence counter is never negative for every
interleaving of onConnect and onDisconnect operations starting from 0; every
onDisconnect clamps, so the value it returns and persists is nonnegative;
and for every interleaving in which the N onConnect operations all precede
the M ≥ N onDisconnect operations the resulting counter equals 0. -/
theorem C4_presence_clamped :
    (∀ es : List ConnEvent, 0 ≤ presenceRun es)
    ∧ (∀ u : Int, 0 ≤ onDisconnected u)
    ∧ (∀ N M : Nat, N ≤ M →
        presenceRun (List.replicate N ConnEvent.connect
          ++ List.replicate M ConnEvent.disconnect) = 0) := by
  refine ⟨fun es => presenceFoldl_nonneg es 0 le_rfl, fun u => le_max_left 0 _,
    fun N M h => ?_⟩
  rw [presenceRun, List.foldl_append, presence_connects]
  refine presence_disconnects M (0 + N) (by omega) ?_
  omega

/-- Witness for C4 at concrete inputs: 2 connects followed by 3 > 2
disconnects leave the counter at exactly 0. -/
theorem C4_presence_clamped_witness :
    presenceRun (List.replicate 2 ConnEvent.connect
      ++ List.replicate 3 ConnEvent.disconnect) = 0 :=
  C4_presence_clamped.2.2 2 3 (by decide)

/-- Claim C5, confirmed: for every finite sequence of addShape, removeShape
and clear edits applied sequentially to the initially empty Document Store,
the resulting shape mapping agrees pointwise (at every shape id) with the
same sequence applied, in the same order, to the reference in-memory map:
insert on addShape, delete on removeShape, empty on clear. -/
theorem C5_store_refines_reference_map (es : List Edit) (k : ShapeId) :
    objGet (runEdits es).shapes k = refRun es k :=
  runEdits_refines es emptyStore refEmpty (fun _ => rfl) k

/-- Claim C6, refuted on the code: an event with the unknown name "nonsense"
is not rejected. The handler appends it to the event queue, broadcasts it to
the draw group, and acknowledges the sender with res.success() — not a
failure signal. (Only the shapes and background keys stay untouched.) -/
theorem C6_unknown_event_acked_success :
    handleUserEvent noFail (Event.mk "nonsense" (EventData.otherArg "p")) emptyStore
      = ({ emptyStore with eventQueue := [Event.mk "nonsense" (EventData.otherArg "p")] },
         [Event.mk "nonsense" (EventData.otherArg "p")], Ack.success)
    ∧ Ack.success ≠ Ack.fail :=
  ⟨rfl, by decide⟩

/-- Claim C7, counterexample: processing addShape("a", "blob") on the empty
store when the set("shapes") call (operation index 3) throws returns the
failure acknowledgment, but the shared state is NOT left exactly as it was
before the edit: the event remains appended to the event queue even though
the store mutation did not take effect. -/
theorem C7_partial_application_counterexample :
    handleUserEvent (fun i => i == 3)
        (Event.mk "addShape" (EventData.shapeArg "a" "blob")) emptyStore
      = ({ emptyStore with
            eventQueue := [Event.mk "addShape" (EventData.shapeArg "a" "blob")] },
         [], Ack.fail)
    ∧ ({ emptyStore with
          eventQueue := [Event.mk "addShape" (EventData.shapeArg "a" "blob")] } : Store)
      ≠ emptyStore :=
  ⟨rfl, by decide⟩

/-- Claim C7 as amended: for every user edit event, every prior store and
every failure oracle, (1) a run either completes with a success
acknowledgment and the single broadcast of the event, or some call failed:
then the acknowledgment is the failure signal and nothing is broadcast;
but the shared state is not rolled back — it reflects exactly the
operations completed before the failure: (2) a failure at or before the
name dispatch (one of the first three operations) leaves shapes and
background unchanged, fail-acked, nothing broadcast; (3) once the two log
calls complete, the event stays appended to the Event Log no matter what
fails later; (4)-(6) a failing set("shapes") for addShape or removeShape
leaves only the log changed, and a failing del("background") during clear
leaves shapes cleared but the background intact; (7)-(10) a failing
broadcast leaves the mutation of that branch fully applied yet still
returns the failure acknowledgment. In particular a fail-acked edit can
remain appended to the log while the store mutation did not take effect —
the partial application the original claim rules out. -/
theorem C7_fail_ack_no_rollback :
    (∀ (fails : Nat → Bool) (m : Event) (s : Store),
        ((handleUserEvent fails m s).2.2 = Ack.success
          ∧ (handleUserEvent fails m s).2.1 = [m])
        ∨ ((handleUserEvent fails m s).2.2 = Ack.fail
          ∧ (handleUserEvent fails m s).2.1 = []))
    ∧ (∀ (fails : Nat → Bool) (m : Event) (s : Store),
        (fails 0 = true ∨ fails 1 = true ∨ fails 2 = true) →
        ((handleUserEvent fails m s).1).shapes = s.shapes
        ∧ ((handleUserEvent fails m s).1).background = s.background
        ∧ (handleUserEvent fails m s).2.2 = Ack.fail
        ∧ (handleUserEvent fails m s).2.1 = [])
    ∧ (∀ (fails : Nat → Bool) (m : Event) (s : Store),
        fails 0 = false → fails 1 = false →
        ((handleUserEvent fails m s).1).eventQueue = (m :: s.eventQueue).take 100)
    ∧ (∀ (fails : Nat → Bool) (id : ShapeId) (sh : Shape) (s : Store),
        fails 0 = false → fails 1 = false → fails 2 = false → fails 3 = true →
        handleUserEvent fails (Event.mk "addShape" (EventData.shapeArg id sh)) s
          = ({ s with eventQueue :=
                (Event.mk "addShape" (EventData.shapeArg id sh) :: s.eventQueue).take 100 },
             [], Ack.fail))
    ∧ (∀ (fails : Nat → Bool) (d : EventData) (s : Store),
        fails 0 = false → fails 1 = false → fails 2 = false → fails 3 = true →
        handleUserEvent fails (Event.mk "removeShape" d) s
          = ({ s with eventQueue := (Event.mk "removeShape" d :: s.eventQueue).take 100 },
             [], Ack.fail))
    ∧ (∀ (fails : Nat → Bool) (d : EventData) (s : Store),
        fails 0 = false → fails 1 = false → fails 2 = false → fails 3 = true →
        handleUserEvent fails (Event.mk "clear" d) s
          = ({ s with
                eventQueue := (Event.mk "clear" d :: s.eventQueue).take 100,
                shapes := [] },
             [], Ack.fail))
    ∧ (∀ (fails : Nat → Bool) (id : ShapeId) (sh : Shape) (s : Store),
        fails 0 = false → fails 1 = false → fails 2 = false → fails 3 = false →
        fails 4 = true →
        handleUserEvent fails (Event.mk "addShape" (EventData.shapeArg id sh)) s
          = ({ s with
                eventQueue := (Event.mk "addShape" (EventData.shapeArg id sh) :: s.eventQueue).take 100,
                shapes := objSet s.shapes id sh },
             [], Ack.fail))
    ∧ (∀ (fails : Nat → Bool) (d : EventData) (s : Store),
        fails 0 = false → fails 1 = false → fails 2 = false → fails 3 = false →
        fails 4 = true →
        handleUserEvent fails (Event.mk "removeShape" d) s
          = ({ s with
                eventQueue := (Event.mk "removeShape" d :: s.eventQueue).take 100,
                shapes := objDel s.shapes d.asKey },
             [], Ack.fail))
    ∧ (∀ (fails : Nat → Bool) (d : EventData) (s : Store),
        fails 0 = false → fails 1 = false → fails 2 = false → fails 3 = false →
        fails 4 = true →
        handleUserEvent fails (Event.mk "clear" d) s
          = ({ s with
                eventQueue := (Event.mk "clear" d :: s.eventQueue).take 100,
                shapes := [], background := Option.none },
             [], Ack.fail))
    ∧ (∀ (fails : Nat → Bool) (n : String) (d : EventData) (s : Store),
        n ∉ (["addShape", "removeShape", "clear"] : List String) →
        fails 0 = false → fails 1 = false → fails 2 = true →
        handleUserEvent fails (Event.mk n d) s
          = ({ s with eventQueue := (Event.mk n d :: s.eventQueue).take 100 },
             [], Ack.fail)) := by
  refine ⟨?_, ?_, ?_, ?_, ?_, ?_, ?_, ?_, ?_, ?_⟩
  · intro fails m s
    obtain ⟨n, d⟩ := m
    by_cases hn1 : n = "addShape"
    · subst hn1
      cases d with
      | shapeArg id sh =>
        cases h0 : fails 0 <;> cases h1 : fails 1 <;> cases h2 : fails 2 <;>
          cases h3 : fails 3 <;> cases h4 : fails 4 <;>
          simp [handleUserEvent, opsFor, runOps, h0, h1, h2, h3, h4]
      | idArg r =>
        cases h0 : fails 0 <;> cases h1 : fails 1 <;>
          simp [handleUserEvent, opsFor, runOps, h0, h1]
      | otherArg r =>
        cases h0 : fails 0 <;> cases h1 : fails 1 <;>
          simp [handleUserEvent, opsFor, runOps, h0, h1]
    · by_cases hn2 : n = "removeShape"
      · subst hn2
        cases h0 : fails 0 <;> cases h1 : fails 1 <;> cases h2 : fails 2 <;>
          cases h3 : fails 3 <;> cases h4 : fails 4 <;>
          simp [handleUserEvent, opsFor, runOps, h0, h1, h2, h3, h4]
      · by_cases hn3 : n = "clear"
        · subst hn3
          cases h0 : fails 0 <;> cases h1 : fails 1 <;> cases h2 : fails 2 <;>
            cases h3 : fails 3 <;> cases h4 : fails 4 <;>
            simp [handleUserEvent, opsFor, runOps, h0, h1, h2, h3, h4]
        · cases h0 : fails 0 <;> cases h1 : fails 1 <;> cases h2 : fails 2 <;>
            simp [handleUserEvent, opsFor, runOps, h0, h1, h2, hn1, hn2, hn3]
  · intro fails m s h
    obtain ⟨n, d⟩ := m
    by_cases hn1 : n = "addShape"
    · subst hn1
      rcases h with h | h | h <;> cases d <;>
        cases h0 : fails 0 <;> cases h1 : fails 1 <;>
        simp_all [handleUserEvent, opsFor, runOps]
    · by_cases hn2 : n = "removeShape"
      · subst hn2
        rcases h with h | h | h <;>
          cases h0 : fails 0 <;> cases h1 : fails 1 <;>
          simp_all [handleUserEvent, opsFor, runOps]
      · by_cases hn3 : n = "clear"
        · subst hn3
          rcases h with h | h | h <;>
            cases h0 : fails 0 <;> cases h1 : fails 1 <;>
            simp_all [handleUserEvent, opsFor, runOps]
        · rcases h with h | h | h <;>
            cases h0 : fails 0 <;> cases h1 : fails 1 <;>
            simp_all [handleUserEvent, opsFor, runOps, hn1, hn2, hn3]
  · intro fails m s h0 h1
    obtain ⟨n, d⟩ := m
    by_cases hn1 : n = "addShape"
    · subst hn1
      cases d with
      | shapeArg id sh =>
        cases h2 : fails 2 <;> cases h3 : fails 3 <;> cases h4 : fails 4 <;>
          simp [handleUserEvent, opsFor, runOps, h0, h1, h2, h3, h4]
      | idArg r => simp [handleUserEvent, opsFor, runOps, h0, h1]
      | otherArg r => simp [handleUserEvent, opsFor, runOps, h0, h1]
    · by_cases hn2 : n = "removeShape"
      · subst hn2
        cases h2 : fails 2 <;> cases h3 : fails 3 <;> cases h4 : fails 4 <;>
          simp [handleUserEvent, opsFor, runOps, h0, h1, h2, h3, h4]
      · by_cases hn3 : n = "clear"
        · subst hn3
          cases h2 : fails 2 <;> cases h3 : fails 3 <;> cases h4 : fails 4 <;>
            simp [handleUserEvent, opsFor, runOps, h0, h1, h2, h3, h4]
        · cases h2 : fails 2 <;>
            simp [handleUserEvent, opsFor, runOps, h0, h1, h2, hn1, hn2, hn3]
  · intro fails id sh s h0 h1 h2 h3
    simp [handleUserEvent, opsFor, runOps, h0, h1, h2, h3]
  · intro fails d s h0 h1 h2 h3
    simp [handleUserEvent, opsFor, runOps, h0, h1, h2, h3]
  · intro fails d s h0 h1 h2 h3
    simp [handleUserEvent, opsFor, runOps, h0, h1, h2, h3]
  · intro fails id sh s h0 h1 h2 h3 h4
    simp [handleUserEvent, opsFor, runOps, h0, h1, h2, h3, h4]
  · intro fails d s h0 h1 h2 h3 h4
    simp [handleUserEvent, opsFor, runOps, h0, h1, h2, h3, h4]
  · intro fails d s h0 h1 h2 h3 h4
    simp [handleUserEvent, opsFor, runOps, h0, h1, h2, h3, h4]
  · intro fails n d s hn h0 h1 h2
    simp only [List.mem_cons, List.not_mem_nil, or_false, not_or] at hn
    obtain ⟨hn1, hn2, hn3⟩ := hn
    simp [handleUserEvent, opsFor, runOps, h0, h1, h2, hn1, hn2, hn3]

/-- Witness for C7 at concrete inputs: processing clear on a store holding
one shape and a background, with the del("background") call (operation
index 3) throwing, returns the failure acknowledgment and broadcasts
nothing, yet the clear event is retained in the log and the shapes were
cleared while the background survived — completed operations were not
rolled back. -/
theorem C7_fail_ack_no_rollback_witness :
    handleUserEvent (fun i => i == 3) (Event.mk "clear" (EventData.otherArg ""))
        (Store.mk [("a", "x")] (Option.some (Background.mk "b" "img" "png")) [])
      = (Store.mk [] (Option.some (Background.mk "b" "img" "png"))
          [Event.mk "clear" (EventData.otherArg "")],
         [], Ack.fail) := by
  have h := C7_fail_ack_no_rollback.2.2.2.2.2.1 (fun i => i == 3) (EventData.otherArg "")
    (Store.mk [("a", "x")] (Option.some (Background.mk "b" "img" "png")) [])
    rfl rfl rfl rfl
  simpa using h

/-- Claim C8, confirmed: after a failure-free clear both the shapes mapping
and the background slot are empty, and the edit is acknowledged with
success, for every prior store and every payload the clear carries. -/
theorem C8_clear_clears_both (d : EventData) (s : Store) :
    ((handleUserEvent noFail (Event.mk "clear" d) s).1).shapes = []
    ∧ ((handleUserEvent noFail (Event.mk "clear" d) s).1).background = Option.none
    ∧ (handleUserEvent noFail (Event.mk "clear" d) s).2.2 = Ack.success :=
  ⟨rfl, rfl, rfl⟩

/-- Claim C9, confirmed: removeShape(id) deletes exactly the binding of id
(pointwise: lookup of id yields nothing afterwards, every other lookup is
unchanged); when id is absent it is a silent no-op that still acknowledges
success; and addShape("a", ...) followed by removeShape("a") on the empty
store yields the empty shapes mapping with the background unchanged. -/
theorem C9_removeShape_semantics :
    (∀ (s : Store) (id k : ShapeId),
        objGet ((handleUserEvent noFail
            (Event.mk "removeShape" (EventData.idArg id)) s).1).shapes k
          = if k = id then Option.none else objGet s.shapes k)
    ∧ (∀ (s : Store) (id : ShapeId), objGet s.shapes id = Option.none →
        ((handleUserEvent noFail
            (Event.mk "removeShape" (EventData.idArg id)) s).1).shapes = s.shapes
        ∧ (handleUserEvent noFail
            (Event.mk "removeShape" (EventData.idArg id)) s).2.2 = Ack.success)
    ∧ ((runEdits [Edit.add "a" "{x:1}", Edit.remove "a"]).shapes = []
        ∧ (runEdits [Edit.add "a" "{x:1}", Edit.remove "a"]).background
            = emptyStore.background) := by
  refine ⟨fun s id k => ?_, fun s id h => ⟨?_, rfl⟩, by decide, by decide⟩
  · have hs : ((handleUserEvent noFail
        (Event.mk "removeShape" (EventData.idArg id)) s).1).shapes
        = objDel s.shapes id := rfl
    rw [hs]
    by_cases hk : k = id
    · subst hk
      rw [objGet_objDel_self, if_pos rfl]
    · rw [objGet_objDel_ne _ _ _ hk, if_neg hk]
  · have hs : ((handleUserEvent noFail
        (Event.mk "removeShape" (EventData.idArg id)) s).1).shapes
        = objDel s.shapes id := rfl
    rw [hs, objDel_of_absent _ _ h]

/-- Witness for C9 at a concrete input: removing the absent id "a" from the
empty store leaves the shapes mapping unchanged. -/
theorem C9_removeShape_semantics_witness :
    ((handleUserEvent noFail
        (Event.mk "removeShape" (EventData.idArg "a")) emptyStore).1).shapes
      = emptyStore.shapes :=
  (C9_removeShape_semantics.2.1 emptyStore "a" rfl).1

/-- Claim C10, confirmed: an incoming event whose name is none of addShape,
removeShape and clear leaves the shapes and background keys unchanged — the
whole store changes only in the event queue; and addShape and removeShape
events leave the background key unchanged. -/
theorem C10_frame_effects :
    (∀ (n : String) (d : EventData) (s : Store),
        n ∉ (["addShape", "removeShape", "clear"] : List String) →
        ((handleUserEvent noFail (Event.mk n d) s).1).shapes = s.shapes
        ∧ ((handleUserEvent noFail (Event.mk n d) s).1).background = s.background
        ∧ (handleUserEvent noFail (Event.mk n d) s).1
            = { s with eventQueue := (Event.mk n d :: s.eventQueue).take 100 })
    ∧ (∀ (id : ShapeId) (sh : Shape) (s : Store),
        ((handleUserEvent noFail
            (Event.mk "addShape" (EventData.shapeArg id sh)) s).1).background
          = s.background)
    ∧ (∀ (d : EventData) (s : Store),
        ((handleUserEvent noFail (Event.mk "removeShape" d) s).1).background
          = s.background) := by
  refine ⟨fun n d s h => ?_, fun id sh s => rfl, fun d s => rfl⟩
  simp only [List.mem_cons, List.not_mem_nil, or_false, not_or] at h
  obtain ⟨h1, h2, h3⟩ := h
  rw [handleUserEvent_unknown n d s h1 h2 h3]
  exact ⟨rfl, rfl, rfl⟩

/-- Witness for C10 at a concrete input: a presence-style event named
updateUser leaves shapes and background of the empty store unchanged. -/
theorem C10_frame_effects_witness :
    ((handleUserEvent noFail
        (Event.mk "updateUser" (EventData.otherArg "5")) emptyStore).1).shapes
      = emptyStore.shapes
    ∧ ((handleUserEvent noFail
        (Event.mk "updateUser" (EventData.otherArg "5")) emptyStore).1).background
      = emptyStore.background :=
  ⟨(C10_frame_effects.1 "updateUser" (EventData.otherArg "5") emptyStore (by decide)).1,
   (C10_frame_effects.1 "updateUser" (EventData.otherArg "5") emptyStore (by decide)).2.1⟩

end Whiteboard
